/-
Verification of the Kalman filter used for bounding-box tracking
(peekingduck/pipeline/nodes/model/jdev1/jde_files/utils/kalman_filter.py).

The numerical code is embedded over exact rational arithmetic: every
constant in the source (1/20, 1/160, 1e-2, 1e-5, 1e-1) is an exact
rational, and every operation (matrix products, diagonal construction,
triangular/Cholesky solves) computes, in exact arithmetic, a rational
value.  The Cholesky-factor-and-solve steps (scipy.linalg.cho_factor /
cho_solve, np.linalg.cholesky followed by solve_triangular) are embedded
by the exact value they compute, namely multiplication by the inverse of
the (positive-definite) matrix being factored; the inverse is realised
computably through the adjugate.
-/
import Mathlib

open scoped Matrix

set_option maxRecDepth 8000

set_option maxHeartbeats 1600000

namespace KalmanFilter

/-- The state dimension 8 = 2 * ndim with ndim = 4. -/
abbrev StateVec := Fin 8 → ℚ

abbrev StateMat := Matrix (Fin 8) (Fin 8) ℚ

abbrev MeasVec := Fin 4 → ℚ

/-- `self._std_weight_position = 1.0 / 20`. -/
def std_weight_position : ℚ := 1 / 20

/-- `self._std_weight_velocity = 1.0 / 160`. -/
def std_weight_velocity : ℚ := 1 / 160

/-- `self._motion_mat`: `np.eye(8, 8)` followed by `motion_mat[i, 4 + i] = 1`
for `i < 4` (the time step is 1.0). -/
def motion_mat : StateMat :=
  Matrix.of fun i j => if j = i then 1 else if (j : ℕ) = (i : ℕ) + 4 then 1 else 0

/-- `self._update_mat = np.eye(4, 8)`. -/
def update_mat : Matrix (Fin 4) (Fin 8) ℚ :=
  Matrix.of fun i j => if (j : ℕ) = (i : ℕ) then 1 else 0

/-- The std list built by `initiate`, prior to squaring. -/
def initiate_std (measurement : MeasVec) : Fin 8 → ℚ :=
  ![2 * std_weight_position * measurement 3,
    2 * std_weight_position * measurement 3,
    1 / 100,
    2 * std_weight_position * measurement 3,
    10 * std_weight_velocity * measurement 3,
    10 * std_weight_velocity * measurement 3,
    1 / 100000,
    10 * std_weight_velocity * measurement 3]

/-- `KalmanFilter.initiate`: mean is `np.r_[measurement, zeros]`, covariance
is `np.diag(np.square(std))`. -/
def initiate (measurement : MeasVec) : StateVec × StateMat :=
  (fun i => if h : (i : ℕ) < 4 then measurement ⟨i, h⟩ else 0,
   Matrix.diagonal fun i => initiate_std measurement i ^ 2)

/-- The std list `np.r_[std_pos, std_vel]` built by `predict`, prior to
squaring. -/
def predict_std (mean : StateVec) : Fin 8 → ℚ :=
  ![std_weight_position * mean 3,
    std_weight_position * mean 3,
    1 / 100,
    std_weight_position * mean 3,
    std_weight_velocity * mean 3,
    std_weight_velocity * mean 3,
    1 / 100000,
    std_weight_velocity * mean 3]

/-- `KalmanFilter.predict`: `motion_cov = np.diag(np.square(np.r_[std_pos,
std_vel]))`; `mean = np.dot(mean, motion_mat.T)`; `covariance =
multi_dot((motion_mat, covariance, motion_mat.T)) + motion_cov`. -/
def predict (mean : StateVec) (covariance : StateMat) : StateVec × StateMat :=
  (Matrix.vecMul mean motion_matᵀ,
   motion_mat * covariance * motion_matᵀ +
     Matrix.diagonal fun i => predict_std mean i ^ 2)

/-- The std list built by `project`, prior to squaring (aspect entry `1e-1`). -/
def project_std (mean : StateVec) : Fin 4 → ℚ :=
  ![std_weight_position * mean 3,
    std_weight_position * mean 3,
    1 / 10,
    std_weight_position * mean 3]

/-- `KalmanFilter.project`: `innovation_cov = np.diag(np.square(std))`;
returns `(np.dot(update_mat, mean), multi_dot((update_mat, covariance,
update_mat.T)) + innovation_cov)`. -/
def project (mean : StateVec) (covariance : StateMat) :
    (Fin 4 → ℚ) × Matrix (Fin 4) (Fin 4) ℚ :=
  (Matrix.mulVec update_mat mean,
   update_mat * covariance * update_matᵀ +
     Matrix.diagonal fun i => project_std mean i ^ 2)

/-- The 8 × N stack `np.r_[std_pos, std_vel]` built by `multi_predict`
(rows 2 and 6 come from `1e-2 * np.ones_like` and `1e-5 * np.ones_like`). -/
def multi_predict_std {n : ℕ} (mean : Fin n → StateVec) : Fin 8 → Fin n → ℚ :=
  ![fun m => std_weight_position * mean m 3,
    fun m => std_weight_position * mean m 3,
    fun _ => 1 / 100,
    fun m => std_weight_position * mean m 3,
    fun m => std_weight_velocity * mean m 3,
    fun m => std_weight_velocity * mean m 3,
    fun _ => 1 / 100000,
    fun m => std_weight_velocity * mean m 3]

/-- `KalmanFilter.multi_predict` on an N×8 mean matrix and N×8×8 covariance
array: `sqr = np.square(np.r_[std_pos, std_vel]).T`; `motion_cov[m] =
np.diag(sqr[m])`; `mean = np.dot(mean, motion_mat.T)`;
`left = np.dot(motion_mat, covariance).transpose((1, 0, 2))`
(so `left[m][i][k] = sum_j motion_mat[i][j] * covariance[m][j][k]`);
`covariance = np.dot(left, motion_mat.T) + motion_cov`. -/
def multi_predict {n : ℕ} (mean : Fin n → StateVec)
    (covariance : Fin n → StateMat) : (Fin n → StateVec) × (Fin n → StateMat) :=
  (fun m => Matrix.vecMul (mean m) motion_matᵀ,
   fun m =>
     (Matrix.of fun i j =>
       ∑ k, (∑ l, motion_mat i l * covariance m l k) * motion_matᵀ k j) +
     Matrix.diagonal fun i => multi_predict_std mean i m ^ 2)

/-- Computable matrix inverse via the adjugate: for an invertible matrix this
is the true inverse; it is the exact-arithmetic value computed by the
Cholesky factor-and-solve routines of the source on a positive-definite
matrix. -/
def matInv {d : ℕ} (A : Matrix (Fin d) (Fin d) ℚ) : Matrix (Fin d) (Fin d) ℚ :=
  A.det⁻¹ • A.adjugate

/-- The Kalman gain of `KalmanFilter.update`:
`cho_solve(cho_factor(projected_cov), np.dot(covariance, update_mat.T).T).T`,
i.e. the exact solution `X` of `projected_cov · X = (covariance · Hᵀ)ᵀ`,
transposed. -/
def kalman_gain (mean : StateVec) (covariance : StateMat) :
    Matrix (Fin 8) (Fin 4) ℚ :=
  (matInv (project mean covariance).2 * (covariance * update_matᵀ)ᵀ)ᵀ

/-- `KalmanFilter.update`: `innovation = measurement - projected_mean`;
`new_mean = mean + np.dot(innovation, kalman_gain.T)`;
`new_covariance = covariance - multi_dot((kalman_gain, projected_cov,
kalman_gain.T))`. -/
def update (mean : StateVec) (covariance : StateMat) (measurement : MeasVec) :
    StateVec × StateMat :=
  (mean + Matrix.vecMul (fun i => measurement i - (project mean covariance).1 i)
      (kalman_gain mean covariance)ᵀ,
   covariance -
     kalman_gain mean covariance * (project mean covariance).2 *
       (kalman_gain mean covariance)ᵀ)

/-- The metric dispatch of `gating_distance` after projection and optional
restriction: `dist = measurements - mean`; for "gaussian" the row sums of
`dist * dist`; for "maha" the squared Mahalanobis distances (the value
computed by `cholesky` + `solve_triangular` in exact arithmetic, namely
`dist · projected_cov⁻¹ · dist`); any other metric raises `ValueError`. -/
def gating_core {d n : ℕ} (mean : Fin d → ℚ) (covariance : Matrix (Fin d) (Fin d) ℚ)
    (measurements : Fin n → Fin d → ℚ) (metric : String) :
    Except String (Fin n → ℚ) :=
  let dist : Fin n → Fin d → ℚ := fun k i => measurements k i - mean i
  if metric = "gaussian" then
    Except.ok fun k => ∑ i, dist k i * dist k i
  else if metric = "maha" then
    Except.ok fun k => Matrix.dotProduct (dist k) (Matrix.mulVec (matInv covariance) (dist k))
  else
    Except.error "Invalid distance metric."

/-- `KalmanFilter.gating_distance`: project the state; when `only_position`
restrict to `mean[:2]`, `covariance[:2, :2]`, `measurements[:, :2]`; then
dispatch on the metric string. -/
def gating_distance {n : ℕ} (mean : StateVec) (covariance : StateMat)
    (measurements : Fin n → MeasVec) (only_position : Bool) (metric : String) :
    Except String (Fin n → ℚ) :=
  let pm := (project mean covariance).1
  let pc := (project mean covariance).2
  if only_position then
    gating_core (fun i : Fin 2 => pm (Fin.castLE (by norm_num) i))
      (Matrix.of fun i j : Fin 2 =>
        pc (Fin.castLE (by norm_num) i) (Fin.castLE (by norm_num) j))
      (fun k (i : Fin 2) => measurements k (Fin.castLE (by norm_num) i)) metric
  else
    gating_core pm pc measurements metric

/-- Symmetry of a rational matrix. -/
def IsSymmQ {d : ℕ} (M : Matrix (Fin d) (Fin d) ℚ) : Prop := Mᵀ = M

/-- Positive semi-definiteness over ℚ: symmetric with nonnegative quadratic
form. -/
def PosSemidefQ {d : ℕ} (M : Matrix (Fin d) (Fin d) ℚ) : Prop :=
  IsSymmQ M ∧ ∀ x : Fin d → ℚ, 0 ≤ Matrix.dotProduct x (Matrix.mulVec M x)

/-- Positive definiteness over ℚ: symmetric with positive quadratic form on
nonzero vectors. -/
def PosDefQ {d : ℕ} (M : Matrix (Fin d) (Fin d) ℚ) : Prop :=
  IsSymmQ M ∧ ∀ x : Fin d → ℚ, x ≠ 0 → 0 < Matrix.dotProduct x (Matrix.mulVec M x)

/-- Concrete state mean: the state initiated from measurement (100, 50, 0.5, 200). -/
def mean0 : StateVec := ![100, 50, 1/2, 200, 0, 0, 0, 0]

/-- Concrete state covariance: the covariance initiated from measurement
(100, 50, 0.5, 200). -/
def cov0 : StateMat :=
  Matrix.diagonal ![400, 400, 1/10000, 400, 625/4, 625/4, 1/10000000000, 625/4]

/-- Concrete measurement (100, 50, 0.5, 200). -/
def meas0 : MeasVec := ![100, 50, 1/2, 200]

/-- A second concrete measurement. -/
def meas1 : MeasVec := ![102, 48, 3/5, 198]

/-- A concrete state mean differing from `mean0` only in the aspect-ratio
component. -/
def mean1 : StateVec := ![100, 50, 3/4, 200, 0, 0, 0, 0]

/-- A concrete measurement agreeing with `meas0` on the first two components
only. -/
def meas2 : MeasVec := ![100, 50, 9, 9]

section Helpers

theorem psdq_add {d : ℕ} {A B : Matrix (Fin d) (Fin d) ℚ}
    (hA : PosSemidefQ A) (hB : PosSemidefQ B) : PosSemidefQ (A + B) := by
  refine ⟨?_, fun x => ?_⟩
  · show (A + B)ᵀ = A + B
    rw [Matrix.transpose_add, hA.1, hB.1]
  · rw [Matrix.add_mulVec, Matrix.dotProduct_add]
    exact add_nonneg (hA.2 x) (hB.2 x)

theorem psdq_congruence {a b : ℕ} (B : Matrix (Fin a) (Fin b) ℚ)
    {M : Matrix (Fin b) (Fin b) ℚ} (hM : PosSemidefQ M) :
    PosSemidefQ (B * M * Bᵀ) := by
  refine ⟨?_, fun x => ?_⟩
  · show (B * M * Bᵀ)ᵀ = B * M * Bᵀ
    rw [Matrix.transpose_mul, Matrix.transpose_mul, Matrix.transpose_transpose,
      hM.1, Matrix.mul_assoc]
  · have h1 : Matrix.mulVec (B * M * Bᵀ) x =
        Matrix.mulVec B (Matrix.mulVec M (Matrix.mulVec Bᵀ x)) := by
      rw [Matrix.mulVec_mulVec, Matrix.mulVec_mulVec]
    rw [h1, Matrix.dotProduct_mulVec, Matrix.mulVec_transpose]
    exact hM.2 (Matrix.vecMul x B)

theorem psdq_diagonal {d : ℕ} {v : Fin d → ℚ} (h : ∀ i, 0 ≤ v i) :
    PosSemidefQ (Matrix.diagonal v) := by
  refine ⟨Matrix.diagonal_transpose v, fun x => ?_⟩
  have h1 : Matrix.dotProduct x (Matrix.mulVec (Matrix.diagonal v) x) =
      ∑ i, v i * (x i * x i) := by
    simp [Matrix.dotProduct, Matrix.mulVec_diagonal]
    exact Finset.sum_congr rfl fun i _ => by ring
  rw [h1]
  exact Finset.sum_nonneg fun i _ => mul_nonneg (h i) (mul_self_nonneg (x i))

theorem pdq_diagonal {d : ℕ} {v : Fin d → ℚ} (h : ∀ i, 0 < v i) :
    PosDefQ (Matrix.diagonal v) := by
  refine ⟨Matrix.diagonal_transpose v, fun x hx => ?_⟩
  have h1 : Matrix.dotProduct x (Matrix.mulVec (Matrix.diagonal v) x) =
      ∑ i, v i * (x i * x i) := by
    simp [Matrix.dotProduct, Matrix.mulVec_diagonal]
    exact Finset.sum_congr rfl fun i _ => by ring
  obtain ⟨i, hi⟩ : ∃ i, x i ≠ 0 := by
    by_contra hall
    push_neg at hall
    exact hx (funext hall)
  rw [h1]
  refine Finset.sum_pos' (fun j _ => mul_nonneg (h j).le (mul_self_nonneg (x j)))
    ⟨i, Finset.mem_univ i, mul_pos (h i) (mul_self_pos.mpr hi)⟩

theorem pdq_psdq {d : ℕ} {M : Matrix (Fin d) (Fin d) ℚ} (h : PosDefQ M) :
    PosSemidefQ M := by
  refine ⟨h.1, fun x => ?_⟩
  by_cases hx : x = 0
  · subst hx
    rw [Matrix.zero_dotProduct]
  · exact (h.2 x hx).le

theorem pdq_det_ne_zero {d : ℕ} {M : Matrix (Fin d) (Fin d) ℚ}
    (h : PosDefQ M) : M.det ≠ 0 := by
  intro hdet
  obtain ⟨v, hv, hMv⟩ := Matrix.exists_mulVec_eq_zero_iff.mpr hdet
  have hpos := h.2 v hv
  rw [hMv, Matrix.dotProduct_zero] at hpos
  exact lt_irrefl 0 hpos

theorem matInv_mul {d : ℕ} {M : Matrix (Fin d) (Fin d) ℚ} (h : M.det ≠ 0) :
    matInv M * M = 1 := by
  show (M.det⁻¹ • M.adjugate) * M = 1
  rw [Matrix.smul_mul, Matrix.adjugate_mul, smul_smul, inv_mul_cancel₀ h, one_smul]

theorem mul_matInv {d : ℕ} {M : Matrix (Fin d) (Fin d) ℚ} (h : M.det ≠ 0) :
    M * matInv M = 1 := by
  show M * (M.det⁻¹ • M.adjugate) = 1
  rw [Matrix.mul_smul, Matrix.mul_adjugate, smul_smul, inv_mul_cancel₀ h, one_smul]

theorem matInv_transpose {d : ℕ} (M : Matrix (Fin d) (Fin d) ℚ) :
    (matInv M)ᵀ = matInv Mᵀ := by
  show (M.det⁻¹ • M.adjugate)ᵀ = Mᵀ.det⁻¹ • Mᵀ.adjugate
  rw [Matrix.transpose_smul, Matrix.adjugate_transpose, Matrix.det_transpose]

theorem diag_nonneg_of_psdq {d : ℕ} {M : Matrix (Fin d) (Fin d) ℚ}
    (h : PosSemidefQ M) (i : Fin d) : 0 ≤ M i i := by
  have hq := h.2 (Pi.single i 1)
  have h1 : Matrix.dotProduct (Pi.single i 1) (Matrix.mulVec M (Pi.single i 1)) =
      M i i := by
    rw [Matrix.single_dotProduct, one_mul]
    show Matrix.dotProduct (fun j => M i j) (Pi.single i 1) = M i i
    rw [Matrix.dotProduct_single, mul_one]
  rwa [h1] at hq

theorem trace_nonneg_of_psdq {d : ℕ} {M : Matrix (Fin d) (Fin d) ℚ}
    (h : PosSemidefQ M) : 0 ≤ M.trace := by
  exact Finset.sum_nonneg fun i _ => diag_nonneg_of_psdq h i

theorem project_cov_symm (mean : StateVec) {covariance : StateMat}
    (hc : IsSymmQ covariance) : IsSymmQ (project mean covariance).2 := by
  show (update_mat * covariance * update_matᵀ + _)ᵀ = _
  rw [Matrix.transpose_add, Matrix.diagonal_transpose, Matrix.transpose_mul,
    Matrix.transpose_mul, Matrix.transpose_transpose, hc, ← Matrix.mul_assoc]
  rfl

theorem kalman_gain_eq (mean : StateVec) {covariance : StateMat}
    (hc : IsSymmQ covariance) :
    kalman_gain mean covariance =
      covariance * update_matᵀ * matInv (project mean covariance).2 := by
  have hP := project_cov_symm mean hc
  show (matInv (project mean covariance).2 * (covariance * update_matᵀ)ᵀ)ᵀ = _
  rw [Matrix.transpose_mul, Matrix.transpose_transpose, matInv_transpose, hP]

theorem update_cov_joseph (mean : StateVec) {covariance : StateMat} (meas : MeasVec)
    (hc : IsSymmQ covariance) (hP : PosDefQ (project mean covariance).2) :
    (update mean covariance meas).2 =
      (1 - kalman_gain mean covariance * update_mat) * covariance *
        (1 - kalman_gain mean covariance * update_mat)ᵀ +
      kalman_gain mean covariance * Matrix.diagonal (fun i => project_std mean i ^ 2) *
        (kalman_gain mean covariance)ᵀ := by
  have hc' : covarianceᵀ = covariance := hc
  have hdet : ((project mean covariance).2).det ≠ 0 := pdq_det_ne_zero hP
  have hPsym : ((project mean covariance).2)ᵀ = (project mean covariance).2 := hP.1
  have hK : kalman_gain mean covariance =
      covariance * update_matᵀ * matInv (project mean covariance).2 :=
    kalman_gain_eq mean hc
  have hKP : kalman_gain mean covariance * (project mean covariance).2 =
      covariance * update_matᵀ := by
    rw [hK, Matrix.mul_assoc, matInv_mul hdet, Matrix.mul_one]
  have hKT : (kalman_gain mean covariance)ᵀ =
      matInv (project mean covariance).2 * (update_mat * covariance) := by
    rw [hK, Matrix.transpose_mul, Matrix.transpose_mul, Matrix.transpose_transpose,
      matInv_transpose, hPsym, hc']
  have hcross : covariance * (update_matᵀ * (kalman_gain mean covariance)ᵀ) =
      kalman_gain mean covariance * (update_mat * covariance) := by
    rw [hKT, hK]
    simp only [Matrix.mul_assoc]
  have hP_expand : (project mean covariance).2 =
      update_mat * covariance * update_matᵀ +
        Matrix.diagonal (fun i => project_std mean i ^ 2) := rfl
  have hA : covariance * (update_matᵀ * (kalman_gain mean covariance)ᵀ) =
      kalman_gain mean covariance *
        (update_mat * (covariance * (update_matᵀ * (kalman_gain mean covariance)ᵀ))) +
      kalman_gain mean covariance *
        (Matrix.diagonal (fun i => project_std mean i ^ 2) *
          (kalman_gain mean covariance)ᵀ) := by
    conv_lhs => rw [← Matrix.mul_assoc, ← hKP, Matrix.mul_assoc, hP_expand]
    simp only [Matrix.add_mul, Matrix.mul_add, Matrix.mul_assoc]
  show covariance -
      kalman_gain mean covariance * (project mean covariance).2 *
        (kalman_gain mean covariance)ᵀ = _
  simp only [Matrix.transpose_sub, Matrix.transpose_one, Matrix.transpose_mul,
    Matrix.transpose_transpose, Matrix.sub_mul, Matrix.mul_sub, Matrix.one_mul,
    Matrix.mul_one, hP_expand, Matrix.add_mul, Matrix.mul_add, Matrix.mul_assoc]
  rw [show kalman_gain mean covariance * (update_mat * covariance) =
      covariance * (update_matᵀ * (kalman_gain mean covariance)ᵀ) from hcross.symm]
  set K := kalman_gain mean covariance with hKdef
  set H := update_mat with hHdef
  set R := Matrix.diagonal (fun i => project_std mean i ^ 2) with hRdef
  set T1 := K * (H * (covariance * (Hᵀ * Kᵀ))) with hT1
  set T2 := K * (R * Kᵀ) with hT2
  have hA' : covariance * (Hᵀ * Kᵀ) = T1 + T2 := by
    rw [hT1, hT2]
    exact hA
  rw [hA']
  abel

theorem initiate_cov_psd (measurement : MeasVec) :
    PosSemidefQ (initiate measurement).2 :=
  psdq_diagonal fun _ => sq_nonneg _

theorem predict_cov_psd (mean : StateVec) {covariance : StateMat}
    (hc : PosSemidefQ covariance) : PosSemidefQ (predict mean covariance).2 :=
  psdq_add (psdq_congruence motion_mat hc) (psdq_diagonal fun _ => sq_nonneg _)

theorem update_cov_psd (mean : StateVec) {covariance : StateMat} (meas : MeasVec)
    (hc : PosSemidefQ covariance) (hP : PosDefQ (project mean covariance).2) :
    PosSemidefQ (update mean covariance meas).2 := by
  rw [update_cov_joseph mean meas hc.1 hP]
  exact psdq_add (psdq_congruence _ hc)
    (psdq_congruence _ (psdq_diagonal fun _ => sq_nonneg _))

theorem multi_predict_eq_predict {n : ℕ} (mean : Fin n → StateVec)
    (covariance : Fin n → StateMat) (m : Fin n) :
    ((multi_predict mean covariance).1 m, (multi_predict mean covariance).2 m) =
      predict (mean m) (covariance m) := by
  refine Prod.ext rfl ?_
  show (Matrix.of fun i j =>
      ∑ k, (∑ l, motion_mat i l * covariance m l k) * motion_matᵀ k j) +
      Matrix.diagonal (fun i => multi_predict_std mean i m ^ 2) =
    motion_mat * covariance m * motion_matᵀ +
      Matrix.diagonal fun i => predict_std (mean m) i ^ 2
  have h1 : (Matrix.of fun i j =>
      ∑ k, (∑ l, motion_mat i l * covariance m l k) * motion_matᵀ k j) =
      motion_mat * covariance m * motion_matᵀ := by
    ext i j
    simp only [Matrix.mul_apply, Matrix.of_apply]
  have h2 : (fun i => multi_predict_std mean i m ^ 2) =
      fun i => predict_std (mean m) i ^ 2 := by
    funext i
    fin_cases i <;> rfl
  rw [h1, h2]

theorem multi_predict_cov_eq {n : ℕ} (mean : Fin n → StateVec)
    (covariance : Fin n → StateMat) (m : Fin n) :
    (multi_predict mean covariance).2 m = (predict (mean m) (covariance m)).2 :=
  congrArg Prod.snd (multi_predict_eq_predict mean covariance m)

theorem cov0_psd : PosSemidefQ cov0 := by
  refine psdq_diagonal ?_
  intro i
  fin_cases i <;> norm_num

theorem proj0_cov_eq :
    (project mean0 cov0).2 = Matrix.diagonal ![500, 500, 101/10000, 500] := by
  show update_mat * cov0 * update_matᵀ + _ = _
  ext i j
  fin_cases i <;> fin_cases j <;>
    norm_num +decide [Matrix.mul_apply, update_mat, Matrix.diagonal, project_std,
      mean0, cov0, std_weight_position, Fin.sum_univ_eight, Fin.sum_univ_four]

theorem vec8_four {a b c d e f g h : ℚ} : ![a, b, c, d, e, f, g, h] 4 = e := rfl

theorem vec8_five {a b c d e f g h : ℚ} : ![a, b, c, d, e, f, g, h] 5 = f := rfl

theorem vec8_six {a b c d e f g h : ℚ} : ![a, b, c, d, e, f, g, h] 6 = g := rfl

theorem vec8_seven {a b c d e f g h : ℚ} : ![a, b, c, d, e, f, g, h] 7 = h := rfl

theorem motion_mat_entry (i j : Fin 8) :
    motion_mat i j =
      if i = j then 1 else
        if (j : ℕ) = (i : ℕ) + 4 ∧ (i : ℕ) < 4 then 1 else 0 := by
  show (if j = i then 1 else if (j : ℕ) = (i : ℕ) + 4 then 1 else 0 : ℚ) = _
  by_cases h1 : j = i
  · subst h1
    rw [if_pos rfl, if_pos rfl]
  · rw [if_neg h1, if_neg (Ne.symm h1)]
    by_cases h2 : (j : ℕ) = (i : ℕ) + 4
    · have h3 : (i : ℕ) < 4 := by
        have := j.isLt
        omega
      rw [if_pos h2, if_pos ⟨h2, h3⟩]
    · rw [if_neg h2, if_neg (by tauto)]

theorem initiate_cov_diag_apply (m : MeasVec) (i : Fin 8) :
    (initiate m).2 i i = initiate_std m i ^ 2 := by
  show Matrix.diagonal _ i i = _
  rw [Matrix.diagonal_apply_eq]

theorem initiate_meas0_eq : initiate meas0 = (mean0, cov0) := by
  refine Prod.ext ?_ ?_
  · funext i
    fin_cases i <;> simp +decide [initiate, meas0, mean0]
  · show Matrix.diagonal _ = cov0
    ext i j
    fin_cases i <;> fin_cases j <;>
      norm_num +decide [Matrix.diagonal, initiate_std, meas0, cov0,
        std_weight_position, std_weight_velocity]

theorem proj0_pd : PosDefQ (project mean0 cov0).2 := by
  rw [proj0_cov_eq]
  refine pdq_diagonal ?_
  intro i
  fin_cases i <;> norm_num

end Helpers

/-- C1: for every 8-vector mean and symmetric positive semi-definite 8×8
covariance whose projected covariance H·Σ·Hᵀ + R is positive definite, and
every 4-vector measurement, the covariance returned by `update` has trace at
most the trace of the input covariance. -/
theorem update_trace_nonincreasing (mean : StateVec) (covariance : StateMat)
    (measurement : MeasVec) (_hc : PosSemidefQ covariance)
    (hP : PosDefQ (project mean covariance).2) :
    ((update mean covariance measurement).2).trace ≤ covariance.trace := by
  show (covariance - kalman_gain mean covariance * (project mean covariance).2 *
      (kalman_gain mean covariance)ᵀ).trace ≤ covariance.trace
  rw [Matrix.trace_sub]
  have hpsd : PosSemidefQ (kalman_gain mean covariance *
      (project mean covariance).2 * (kalman_gain mean covariance)ᵀ) :=
    psdq_congruence _ (pdq_psdq hP)
  have hnn := trace_nonneg_of_psdq hpsd
  linarith

/-- Witness for C1 at the state initiated from (100, 50, 0.5, 200) and the
measurement (102, 48, 0.6, 198). -/
theorem update_trace_nonincreasing_witness :
    PosSemidefQ cov0 ∧ PosDefQ (project mean0 cov0).2 ∧
    ((update mean0 cov0 meas1).2).trace ≤ cov0.trace :=
  ⟨cov0_psd, proj0_pd,
   update_trace_nonincreasing mean0 cov0 meas1 cov0_psd proj0_pd⟩

/-- C2: symmetry and positive semi-definiteness of the covariance is an
invariant of `initiate`, `predict`, `multi_predict` and (given a
positive-definite projected covariance) `update`. -/
theorem covariance_psd_invariant :
    (∀ measurement : MeasVec, PosSemidefQ (initiate measurement).2) ∧
    (∀ (mean : StateVec) (covariance : StateMat), PosSemidefQ covariance →
      PosSemidefQ (predict mean covariance).2) ∧
    (∀ (n : ℕ) (mean : Fin n → StateVec) (covariance : Fin n → StateMat)
      (i : Fin n), PosSemidefQ (covariance i) →
      PosSemidefQ ((multi_predict mean covariance).2 i)) ∧
    (∀ (mean : StateVec) (covariance : StateMat) (measurement : MeasVec),
      PosSemidefQ covariance → PosDefQ (project mean covariance).2 →
      PosSemidefQ (update mean covariance measurement).2) := by
  refine ⟨initiate_cov_psd, fun mean covariance hc => predict_cov_psd mean hc,
    ?_, fun mean covariance measurement hc hP => update_cov_psd mean measurement hc hP⟩
  intro n mean covariance i hc
  rw [multi_predict_cov_eq]
  exact predict_cov_psd (mean i) hc

/-- Witness for C2 at the state initiated from (100, 50, 0.5, 200). -/
theorem covariance_psd_invariant_witness :
    PosSemidefQ cov0 ∧ PosDefQ (project mean0 cov0).2 ∧
    PosSemidefQ (initiate meas0).2 ∧
    PosSemidefQ (predict mean0 cov0).2 ∧
    PosSemidefQ ((multi_predict (fun _ : Fin 1 => mean0) fun _ => cov0).2 0) ∧
    PosSemidefQ (update mean0 cov0 meas0).2 :=
  ⟨cov0_psd, proj0_pd,
   covariance_psd_invariant.1 meas0,
   covariance_psd_invariant.2.1 mean0 cov0 cov0_psd,
   covariance_psd_invariant.2.2.1 1 (fun _ => mean0) (fun _ => cov0) 0 cov0_psd,
   covariance_psd_invariant.2.2.2 mean0 cov0 meas0 cov0_psd proj0_pd⟩

/-- C3: the i-th row of the pair returned by `multi_predict` equals the
result of calling `predict` on the i-th (mean, covariance) pair. -/
theorem multi_predict_refines_predict {n : ℕ} (mean : Fin n → StateVec)
    (covariance : Fin n → StateMat) (i : Fin n) :
    ((multi_predict mean covariance).1 i, (multi_predict mean covariance).2 i) =
      predict (mean i) (covariance i) :=
  multi_predict_eq_predict mean covariance i

/-- C5: `initiate` on the measurement (100, 50, 0.5, 200) returns mean
(100, 50, 0.5, 200, 0, 0, 0, 0) and the diagonal covariance with diagonal
[400, 400, 1e-4, 400, 156.25, 156.25, 1e-10, 156.25]. -/
theorem initiate_concrete :
    initiate ![100, 50, 1/2, 200] =
      (![100, 50, 1/2, 200, 0, 0, 0, 0],
       Matrix.diagonal ![400, 400, 1/10000, 400, 625/4, 625/4,
         1/10000000000, 625/4]) := by
  refine Prod.ext ?_ ?_
  · funext i
    fin_cases i <;> simp +decide [initiate]
  · show Matrix.diagonal _ = _
    ext i j
    fin_cases i <;> fin_cases j <;>
      norm_num +decide [Matrix.diagonal, initiate_std, std_weight_position,
        std_weight_velocity]

/-- C10: the covariance returned by `update` does not depend on the
measurement; only the returned mean does. -/
theorem update_cov_measurement_independent (mean : StateVec)
    (covariance : StateMat) (m1 m2 : MeasVec)
    (_hP : PosDefQ (project mean covariance).2) :
    (update mean covariance m1).2 = (update mean covariance m2).2 := rfl

/-- Witness for C10 at the state initiated from (100, 50, 0.5, 200) and two
distinct measurements. -/
theorem update_cov_measurement_independent_witness :
    PosDefQ (project mean0 cov0).2 ∧
    (update mean0 cov0 meas0).2 = (update mean0 cov0 meas1).2 :=
  ⟨proj0_pd, update_cov_measurement_independent mean0 cov0 meas0 meas1 proj0_pd⟩

/-- C4: `predict` returns mean A·mean and covariance A·Σ·Aᵀ + Q, where A is
the constant-velocity transition matrix (identity with A[i, 4+i] = 1 for
i < 4) and Q is the diagonal process-noise matrix whose entries are the
squares of the listed std vector, scaled by the current estimated height
mean[3]. -/
theorem predict_formula (mean : StateVec) (covariance : StateMat) :
    (predict mean covariance).1 = Matrix.mulVec motion_mat mean ∧
    (predict mean covariance).2 =
      motion_mat * covariance * motion_matᵀ +
        Matrix.diagonal (fun i =>
          (![std_weight_position * mean 3, std_weight_position * mean 3, 1/100,
             std_weight_position * mean 3, std_weight_velocity * mean 3,
             std_weight_velocity * mean 3, 1/100000,
             std_weight_velocity * mean 3] : Fin 8 → ℚ) i ^ 2) ∧
    (∀ i j : Fin 8, motion_mat i j =
      if i = j then 1 else
        if (j : ℕ) = (i : ℕ) + 4 ∧ (i : ℕ) < 4 then 1 else 0) := by
  refine ⟨?_, rfl, motion_mat_entry⟩
  show Matrix.vecMul mean motion_matᵀ = _
  rw [Matrix.vecMul_transpose]

/-- Counterexample for C7: the top-left covariance entry produced by
`initiate` is not proportional to the input height — it is h²/100, so no
single constant c satisfies entry = c·h for both h = 1 and h = 2. -/
theorem initiate_not_height_proportional :
    ¬ ∃ c : ℚ, ∀ h : ℚ, 0 < h →
      (initiate ![100, 50, 1/2, h]).2 0 0 = c * h := by
  rintro ⟨c, hc⟩
  have h1 := hc 1 one_pos
  have h2 := hc 2 two_pos
  have e1 : (initiate ![100, 50, 1/2, (1:ℚ)]).2 0 0 = 1/100 := by
    rw [initiate_cov_diag_apply]
    norm_num [initiate_std, std_weight_position]
  have e2 : (initiate ![100, 50, 1/2, (2:ℚ)]).2 0 0 = 1/25 := by
    rw [initiate_cov_diag_apply]
    norm_num [initiate_std, std_weight_position]
  rw [e1] at h1
  rw [e2] at h2
  have hcval : c = 1/100 := by linarith
  rw [hcval] at h2
  norm_num at h2

/-- C7 (amended): for every measurement with height > 0, `initiate` returns
zero velocity components and a diagonal covariance with strictly positive
diagonal; the height-dependent entries equal (height/10)² (positions,
height) and (height/16)² (their velocities) — growing with the square of
the height — while the aspect entries are the fixed constants 1e-4 and
1e-10. -/
theorem initiate_velocity_zero_diag_positive (measurement : MeasVec)
    (h : 0 < measurement 3) :
    (∀ i : Fin 8, 4 ≤ (i : ℕ) → (initiate measurement).1 i = 0) ∧
    (initiate measurement).2 =
      Matrix.diagonal ![(measurement 3 / 10) ^ 2, (measurement 3 / 10) ^ 2,
        1/10000, (measurement 3 / 10) ^ 2, (measurement 3 / 16) ^ 2,
        (measurement 3 / 16) ^ 2, 1/10000000000, (measurement 3 / 16) ^ 2] ∧
    (∀ i : Fin 8, 0 < (initiate measurement).2 i i) := by
  refine ⟨?_, ?_, ?_⟩
  · intro i hi
    show (if h' : (i : ℕ) < 4 then measurement ⟨i, h'⟩ else 0) = 0
    rw [dif_neg (by omega)]
  · show Matrix.diagonal _ = _
    ext i j
    fin_cases i <;> fin_cases j <;>
      norm_num +decide [Matrix.diagonal, initiate_std, std_weight_position,
        std_weight_velocity] <;> ring
  · intro i
    fin_cases i <;>
      norm_num +decide [initiate, initiate_std, Matrix.diagonal,
        std_weight_position, std_weight_velocity] <;> positivity

/-- Witness for C7 (amended) at measurement (100, 50, 0.5, 200). -/
theorem initiate_velocity_zero_diag_positive_witness :
    (0 : ℚ) < meas0 3 ∧
    (∀ i : Fin 8, 4 ≤ (i : ℕ) → (initiate meas0).1 i = 0) ∧
    (∀ i : Fin 8, 0 < (initiate meas0).2 i i) := by
  have h : (0:ℚ) < meas0 3 := by norm_num [meas0]
  exact ⟨h, (initiate_velocity_zero_diag_positive meas0 h).1,
    (initiate_velocity_zero_diag_positive meas0 h).2.2⟩

/-- C8: applying `predict` once to the state produced by `initiate` on
(100, 50, 0.5, 200) leaves the four position/shape mean components
unchanged while every diagonal covariance entry strictly increases. -/
theorem predict_after_initiate_concrete :
    (∀ i : Fin 4,
      (predict (initiate meas0).1 (initiate meas0).2).1
          (Fin.castLE (by norm_num) i) =
        (initiate meas0).1 (Fin.castLE (by norm_num) i)) ∧
    (∀ i : Fin 8,
      (initiate meas0).2 i i <
        (predict (initiate meas0).1 (initiate meas0).2).2 i i) := by
  rw [initiate_meas0_eq]
  constructor
  · intro i
    fin_cases i <;>
      norm_num +decide [predict, mean0, Matrix.vecMul, Matrix.dotProduct,
        Matrix.transpose_apply, motion_mat, Fin.sum_univ_eight, Fin.castLE,
        vec8_four, vec8_five, vec8_six, vec8_seven]
  · intro i
    fin_cases i <;>
      norm_num +decide [predict, mean0, cov0, predict_std, Matrix.diagonal,
        Matrix.mul_apply, Matrix.transpose_apply, motion_mat,
        std_weight_position, std_weight_velocity, Fin.sum_univ_eight,
        vec8_four, vec8_five, vec8_six, vec8_seven]

/-- C6: `gating_distance` with a metric string other than "gaussian" or
"maha" fails with the invalid-argument error for every input, returning no
partial result. -/
theorem gating_invalid_metric_error {n : ℕ} (mean : StateVec)
    (covariance : StateMat) (measurements : Fin n → MeasVec)
    (only_position : Bool) (metric : String)
    (h1 : metric ≠ "gaussian") (h2 : metric ≠ "maha") :
    gating_distance mean covariance measurements only_position metric =
      Except.error "Invalid distance metric." := by
  unfold gating_distance gating_core
  cases only_position <;> simp [h1, h2]


/-- Witness for C6 with the unrecognized metric string "cosine". -/

theorem gating_invalid_metric_error_witness :
    ("cosine" : String) ≠ "gaussian" ∧ ("cosine" : String) ≠ "maha" ∧
    gating_distance mean0 cov0 (fun _ : Fin 1 => meas0) false "cosine" =
      Except.error "Invalid distance metric." :=
  ⟨by decide, by decide,
   gating_invalid_metric_error mean0 cov0 (fun _ => meas0) false "cosine"
     (by decide) (by decide)⟩


/-- C9: with only_position = true, `gating_distance` equals the metric
computation carried out on the first two components of the projected mean,
the leading 2×2 block of the projected covariance and the first two
components of each measurement (one entry per measurement, by the result
type); in particular the result depends only on those components. -/

theorem gating_only_position_spec {n : ℕ} (mean mean' : StateVec)
    (covariance covariance' : StateMat)
    (measurements measurements' : Fin n → MeasVec) (metric : String)
    (hm : ∀ i : Fin 2,
      (project mean covariance).1 (Fin.castLE (by norm_num) i) =
        (project mean' covariance').1 (Fin.castLE (by norm_num) i))
    (hc : ∀ i j : Fin 2,
      (project mean covariance).2 (Fin.castLE (by norm_num) i)
          (Fin.castLE (by norm_num) j) =
        (project mean' covariance').2 (Fin.castLE (by norm_num) i)
          (Fin.castLE (by norm_num) j))
    (hs : ∀ (k : Fin n) (i : Fin 2),
      measurements k (Fin.castLE (by norm_num) i) =
        measurements' k (Fin.castLE (by norm_num) i)) :
    gating_distance mean covariance measurements true metric =
      gating_core
        (fun i : Fin 2 =>
          (project mean covariance).1 (Fin.castLE (by norm_num) i))
        (Matrix.of fun i j : Fin 2 =>
          (project mean covariance).2 (Fin.castLE (by norm_num) i)
            (Fin.castLE (by norm_num) j))
        (fun k (i : Fin 2) => measurements k (Fin.castLE (by norm_num) i))
        metric ∧
    gating_distance mean covariance measurements true metric =
      gating_distance mean' covariance' measurements' true metric := by
  constructor
  · rfl
  · show gating_core _ _ _ metric = gating_core _ _ _ metric
    rw [funext hm, funext fun k => funext (hs k),
      show (Matrix.of fun i j : Fin 2 =>
          (project mean covariance).2 (Fin.castLE (by norm_num) i)
            (Fin.castLE (by norm_num) j)) =
        Matrix.of fun i j : Fin 2 =>
          (project mean' covariance').2 (Fin.castLE (by norm_num) i)
            (Fin.castLE (by norm_num) j) from by
        ext i j
        exact hc i j]

/-- Witness for C9: two states differing in the aspect-ratio component and
two measurement batches differing in the last two columns give equal
gating distances. -/

theorem gating_only_position_spec_witness :
    (∀ i : Fin 2,
      (project mean0 cov0).1 (Fin.castLE (by norm_num) i) =
        (project mean1 cov0).1 (Fin.castLE (by norm_num) i)) ∧
    (∀ i j : Fin 2,
      (project mean0 cov0).2 (Fin.castLE (by norm_num) i)
          (Fin.castLE (by norm_num) j) =
        (project mean1 cov0).2 (Fin.castLE (by norm_num) i)
          (Fin.castLE (by norm_num) j)) ∧
    (∀ (k : Fin 1) (i : Fin 2),
      (fun _ : Fin 1 => meas0) k (Fin.castLE (by norm_num) i) =
        (fun _ : Fin 1 => meas2) k (Fin.castLE (by norm_num) i)) ∧
    gating_distance mean0 cov0 (fun _ : Fin 1 => meas0) true "gaussian" =
      gating_distance mean1 cov0 (fun _ : Fin 1 => meas2) true "gaussian" := by
  have hm : ∀ i : Fin 2,
      (project mean0 cov0).1 (Fin.castLE (by norm_num) i) =
        (project mean1 cov0).1 (Fin.castLE (by norm_num) i) := by
    intro i
    fin_cases i <;>
      norm_num +decide [project, mean0, mean1, update_mat, Matrix.mulVec,
        Matrix.dotProduct, Fin.sum_univ_eight, Fin.castLE,
        vec8_four, vec8_five, vec8_six, vec8_seven]
  have hc : ∀ i j : Fin 2,
      (project mean0 cov0).2 (Fin.castLE (by norm_num) i)
          (Fin.castLE (by norm_num) j) =
        (project mean1 cov0).2 (Fin.castLE (by norm_num) i)
          (Fin.castLE (by norm_num) j) := by
    intro i j
    fin_cases i <;> fin_cases j <;>
      norm_num +decide [project, mean0, mean1, cov0, update_mat, project_std,
        Matrix.mul_apply, Matrix.diagonal, Matrix.transpose_apply,
        std_weight_position, Fin.sum_univ_eight, Fin.sum_univ_four, Fin.castLE,
        vec8_four, vec8_five, vec8_six, vec8_seven]
  have hs : ∀ (k : Fin 1) (i : Fin 2),
      (fun _ : Fin 1 => meas0) k (Fin.castLE (by norm_num) i) =
        (fun _ : Fin 1 => meas2) k (Fin.castLE (by norm_num) i) := by
    intro k i
    fin_cases i <;> norm_num [meas0, meas2, Fin.castLE]
  exact ⟨hm, hc, hs,
    (gating_only_position_spec mean0 mean1 cov0 cov0 (fun _ => meas0)
      (fun _ => meas2) "gaussian" hm hc hs).2⟩

end KalmanFilter
